import Mathlib

/-!
# Verification of the awos-js unified object-storage abstraction layer

Shallow embedding of the repository's source (src/aws.ts: the S3-family
adapter `AWSClient` and the unified façade `AWOS`) together with the parts
of the shared base that the adapter uses.  Object payloads are modelled as
byte lists, the vendor S3 client as a key-indexed store plus explicit
`Except`-valued send operations, and JavaScript truthiness is made explicit
wherever the source branches on it.
-/

namespace Awos

/-- Object payloads: byte sequences (JS `Buffer`). A payload written as text
is identified with its byte sequence, so "content equal as text" is byte
equality. -/
abbrev Bytes := List Nat

/-- JS truthiness of an optional string: `undefined` and the empty string
are falsy, every other string is truthy. -/
def jsTruthyStr : Option String → Bool
  | none => false
  | some s => s ≠ ""

/-- JS `a || b` on an optional string with a string default
(`_options.contentType || 'text/plain'`). -/
def jsOrStr : Option String → String → String
  | some s, d => if s = "" then d else s
  | none, d => d

/-- Modelled from the spec: the bucket resolver of the shared base
(`AbstractClient.getBucketName`, src/client.ts is not under src/).
§4.2: `resolve(key) -> bucketName`, pure and deterministic; either a single
fixed bucket regardless of key, or a bucket derived from a key prefix. Here
it is an arbitrary deterministic function carried in the configuration. -/
structure ClientConfig where
  /-- Modelled from the spec §4.3: the codec configured per instance,
  off (`none`) by default; JS truthiness applies (`this.compressType &&`). -/
  compressType : Option String
  /-- Modelled from the spec §4.3: the configured compression threshold
  (`this.compressLimit`); `0` means no threshold enforcement. -/
  compressLimit : Nat
  /-- The external byte codec, §4.3: `compress(bytes) -> bytes`. -/
  compress : Bytes → Bytes
  /-- The external byte codec, §4.3: `decompress(bytes) -> bytes`. -/
  decompress : Bytes → Bytes
  /-- Modelled from the spec §4.2: `getBucketName`. -/
  getBucketName : String → String

/-- An object as held by the backend: what a successful `PutObjectCommand`
stored and what `GetObjectCommand`/`HeadObjectCommand` hand back. -/
structure StoredObject where
  body : Bytes
  metadata : List (String × String)
  contentType : String
  contentEncoding : Option String
  cacheControl : Option String := none
  contentDisposition : Option String := none
  etag : String := ""
  lastModifiedMs : Nat := 0
deriving Repr, DecidableEq

/-- The backend's key-indexed object store (the model of the vendor S3
service state; buckets are not distinguished, no claim separates them). -/
abbrev Store := List (String × StoredObject)

/-- Look an object up by key. -/
def Store.find (st : Store) (key : String) : Option StoredObject :=
  (st.lookup key)

/-- Store an object under a key (overwriting a previous one). -/
def Store.set (st : Store) (key : String) (o : StoredObject) : Store :=
  (key, o) :: st.filter (fun p => p.1 ≠ key)

/-- Errors raised by the vendor S3 client: the typed not-found error
(`NoSuchKey` from `@aws-sdk/client-s3`) or any other backend error. -/
inductive S3Error where
  | noSuchKey
  | other (msg : String)
deriving Repr, DecidableEq

/-- `client.send(new GetObjectCommand(...))` against the model store:
a missing key raises the typed `NoSuchKey` error. -/
def s3SendGet (st : Store) (key : String) : Except S3Error StoredObject :=
  match st.find key with
  | some o => .ok o
  | none => .error .noSuchKey

/-- `client.send(new HeadObjectCommand(...))` against the model store. -/
def s3SendHead (st : Store) (key : String) : Except S3Error StoredObject :=
  match st.find key with
  | some o => .ok o
  | none => .error .noSuchKey

/-- The header projection built by `getWithMetadata`
(`{'content-type', etag, 'content-length'}`, src/aws.ts lines 457-461). -/
structure GetHeaders where
  contentType : String
  etag : String
  contentLength : Nat
deriving Repr, DecidableEq

/-- The result shape of `AWSClient.getWithMetadata` (and of `_get` /
`_getAsBuffer` after their content projection). -/
structure GetResult where
  content : Bytes
  meta : List (String × String)
  headers : GetHeaders
deriving Repr, DecidableEq

/-- JS `String.prototype.startsWith`: the second string is a prefix of the
first (by characters). -/
def strStartsWith (s p : String) : Bool :=
  p.data.isPrefixOf s.data

/-- `awsResult.ContentEncoding?.startsWith('gzip')` (src/aws.ts line 470):
`false` on an absent encoding (optional chaining), else the prefix test. -/
def encodingIsGzip : Option String → Bool
  | some e => strStartsWith e "gzip"
  | none => false

/-- `AWSClient.getWithMetadata` (src/aws.ts lines 436-480): send a get,
filter the object's user metadata down to the requested keys — keeping a
key only when the stored value is truthy (`awsResult.Metadata[k]`, so an
empty-string value is dropped) — project the fixed headers, and decompress
exactly when the stored content-encoding starts with `gzip`.  A `NoSuchKey`
error from the send is caught and normalized to `null`; any other error is
rethrown. -/
def getWithMetadata (cfg : ClientConfig) (st : Store) (key : String)
    (metaKeys : List String) : Except S3Error (Option GetResult) :=
  match s3SendGet st key with
  | .error .noSuchKey => .ok none
  | .error e => .error e
  | .ok awsResult =>
    let meta : List (String × String) := metaKeys.filterMap (fun k =>
      match awsResult.metadata.lookup k with
      | some v => if v ≠ "" then some (k, v) else none
      | none => none)
    let headers : GetHeaders :=
      { contentType := awsResult.contentType
        etag := awsResult.etag
        contentLength := awsResult.body.length }
    let body := awsResult.body
    let content :=
      if encodingIsGzip awsResult.contentEncoding then cfg.decompress body
      else body
    .ok (some { content := content, meta := meta, headers := headers })

/-- `AWSClient._get` (src/aws.ts lines 91-104): `getWithMetadata`, then
`null` when the result is `null`, else the result with its content as text
(`content.toString()`, the identity on the underlying bytes here). -/
def awsGet (cfg : ClientConfig) (st : Store) (key : String)
    (metaKeys : List String) : Except S3Error (Option GetResult) :=
  match getWithMetadata cfg st key metaKeys with
  | .error e => .error e
  | .ok none => .ok none
  | .ok (some r) => .ok (some r)

/-- `AWSClient._getAsBuffer` (src/aws.ts lines 106-117): `getWithMetadata`,
then `null` when the result (or its content) is `null`, else the result
spread unchanged. -/
def awsGetAsBuffer (cfg : ClientConfig) (st : Store) (key : String)
    (metaKeys : List String) : Except S3Error (Option GetResult) :=
  match getWithMetadata cfg st key metaKeys with
  | .error e => .error e
  | .ok none => .ok none
  | .ok (some r) => .ok (some r)

/-- `IHeadOptions` (`{ withStandardHeaders: boolean }`). -/
structure HeadOptions where
  withStandardHeaders : Bool := false
deriving Repr, DecidableEq

/-- JS `Map.prototype.set`: replace a previous binding of the key, keeping
one binding per key. -/
def mapSet (m : List (String × String)) (k v : String) :
    List (String × String) :=
  m.filter (fun p => p.1 ≠ k) ++ [(k, v)]

/-- The standard-headers merge of `AWSClient._head` (src/aws.ts lines
252-263): iterate `STANDARD_HEADERS_KEYMAP`, stringify each field of the
head response, and convert `LastModified` to an epoch-millisecond string. -/
def mergeStandardHeaders (data : StoredObject)
    (meta : List (String × String)) : List (String × String) :=
  let m1 := mapSet meta "content-type" data.contentType
  let m2 := mapSet m1 "content-length" (toString data.body.length)
  let m3 := mapSet m2 "accept-ranges" "bytes"
  let m4 := mapSet m3 "etag" data.etag
  mapSet m4 "last-modified" (toString data.lastModifiedMs)

/-- `AWSClient._head` (src/aws.ts lines 234-271): send a head, copy every
user-metadata pair into a fresh map, merge the fixed standard headers when
`options.withStandardHeaders` is set; a `NoSuchKey` error is caught and
normalized to `null`, any other error is rethrown. -/
def awsHead (st : Store) (key : String) (options : Option HeadOptions) :
    Except S3Error (Option (List (String × String))) :=
  match s3SendHead st key with
  | .error .noSuchKey => .ok none
  | .error e => .error e
  | .ok data =>
    let meta := data.metadata.foldl (fun m p => mapSet m p.1 p.2) []
    let meta :=
      match options with
      | some o => if o.withStandardHeaders then mergeStandardHeaders data meta else meta
      | none => meta
    .ok (some meta)

/-- Errors raised by the vendor OSS client. Modelled from the spec
(src/oss.ts is not under src/): §2 notes divergent not-found signaling
between the two backends; the OSS variant's not-found condition. -/
inductive OssError where
  | noSuchKey
  | other (msg : String)
deriving Repr, DecidableEq

/-- Modelled from the spec: the OSS backend's get against the same store
model — a missing key surfaces as the backend's not-found condition. -/
def ossSendGet (st : Store) (key : String) : Except OssError StoredObject :=
  match st.find key with
  | some o => .ok o
  | none => .error .noSuchKey

/-- Modelled from the spec: the OSS adapter's `get` (src/oss.ts is not
under src/). §4.4: `null` exactly when the object does not exist; the
backend's not-found condition is caught and normalized to `null`, never
rethrown; any other error surfaces unchanged. -/
def ossGet (st : Store) (key : String) (metaKeys : List String) :
    Except OssError (Option GetResult) :=
  match ossSendGet st key with
  | .error .noSuchKey => .ok none
  | .error e => .error e
  | .ok o =>
    let meta := metaKeys.filterMap (fun k =>
      (o.metadata.lookup k).map (fun v => (k, v)))
    .ok (some { content := o.body, meta := meta,
                headers := { contentType := o.contentType, etag := o.etag,
                             contentLength := o.body.length } })

/-- Modelled from the spec: the OSS adapter's `getAsBuffer` (src/oss.ts is
not under src/), same not-found normalization as `ossGet`, content as raw
bytes. -/
def ossGetAsBuffer (st : Store) (key : String) (metaKeys : List String) :
    Except OssError (Option GetResult) :=
  match ossSendGet st key with
  | .error .noSuchKey => .ok none
  | .error e => .error e
  | .ok o =>
    let meta := metaKeys.filterMap (fun k =>
      (o.metadata.lookup k).map (fun v => (k, v)))
    .ok (some { content := o.body, meta := meta,
                headers := { contentType := o.contentType, etag := o.etag,
                             contentLength := o.body.length } })

/-- Modelled from the spec: the OSS adapter's `head` (src/oss.ts is not
under src/). §4.4: metadata map, or `null` exactly on not-found, never
thrown. -/
def ossHead (st : Store) (key : String) :
    Except OssError (Option (List (String × String))) :=
  match ossSendGet st key with
  | .error .noSuchKey => .ok none
  | .error e => .error e
  | .ok o => .ok (some o.metadata)

/-- The `headers` field of put/copy options
(`{ cacheControl?, contentDisposition?, contentEncoding? }`). -/
structure OptionHeaders where
  cacheControl : Option String := none
  contentDisposition : Option String := none
  contentEncoding : Option String := none
deriving Repr, DecidableEq

/-- `IPutObjectOptions` / `ICopyObjectOptions`: a user metadata map (its
values already stringified, matching `String(v)` on strings), a content
type and optional transport headers. -/
structure PutOptions where
  meta : Option (List (String × String)) := none
  contentType : Option String := none
  headers : Option OptionHeaders := none
deriving Repr, DecidableEq

/-- The fields of `PutObjectCommandInput` that `_put` populates. -/
structure PutObjectParams where
  body : Bytes
  bucket : String
  key : String
  metadata : List (String × String)
  contentType : String
  cacheControl : Option String := none
  contentDisposition : Option String := none
  contentEncoding : Option String := none
deriving Repr, DecidableEq

/-- The request-building part of `AWSClient._put` (src/aws.ts lines
119-156): defaulted options and meta, stringified metadata, default
content type `text/plain`, truthy headers copied over, and the compression
branch — when a codec is configured (truthy `this.compressType`) and the
payload length is at least `this.compressLimit`, the body is replaced by
`compress(data)` and the content encoding is forced to `'gzip'`; otherwise
a truthy caller-supplied content encoding is used as is. -/
def putParams (cfg : ClientConfig) (key : String) (data : Bytes)
    (options : Option PutOptions) : PutObjectParams :=
  let bucket := cfg.getBucketName key
  let opts := options.getD {}
  let metaData := opts.meta.getD []
  let hdrs := opts.headers.getD {}
  let base : PutObjectParams :=
    { body := data
      bucket := bucket
      key := key
      metadata := metaData
      contentType := jsOrStr opts.contentType "text/plain"
      cacheControl := if jsTruthyStr hdrs.cacheControl then hdrs.cacheControl else none
      contentDisposition :=
        if jsTruthyStr hdrs.contentDisposition then hdrs.contentDisposition else none }
  if jsTruthyStr cfg.compressType ∧ data.length ≥ cfg.compressLimit then
    { base with body := cfg.compress data, contentEncoding := some "gzip" }
  else if jsTruthyStr hdrs.contentEncoding then
    { base with contentEncoding := hdrs.contentEncoding }
  else
    base

/-- `client.send(new PutObjectCommand(params))` against the model store:
store the object described by the params under its key. -/
def s3SendPut (st : Store) (p : PutObjectParams) : Store :=
  st.set p.key
    { body := p.body
      metadata := p.metadata
      contentType := p.contentType
      contentEncoding := p.contentEncoding
      cacheControl := p.cacheControl
      contentDisposition := p.contentDisposition }

/-- `AWSClient._put` on a backend that accepts the request: build the
params and send them once (src/aws.ts line 157 — no retry wrapper). -/
def awsPut (cfg : ClientConfig) (st : Store) (key : String) (data : Bytes)
    (options : Option PutOptions) : Store :=
  s3SendPut st (putParams cfg key data options)

/-- The fields of `CopyObjectCommandInput` that `_copy` populates. -/
structure CopyObjectParams where
  copySource : String
  bucket : String
  key : String
  metadata : List (String × String)
  contentType : String
  metadataDirective : String
  cacheControl : Option String := none
  contentDisposition : Option String := none
  contentEncoding : Option String := none
deriving Repr, DecidableEq

/-- The request-building part of `AWSClient._copy` (src/aws.ts lines
164-200): source and destination buckets resolved independently,
stringified metadata, and `MetadataDirective` set to `COPY` when the
metadata object is empty (`_.isEmpty(metaData)`) and to `REPLACE`
otherwise. -/
def copyParams (cfg : ClientConfig) (key source : String)
    (options : Option PutOptions) : CopyObjectParams :=
  let bucket := cfg.getBucketName key
  let sourceBucket := cfg.getBucketName source
  let opts := options.getD {}
  let metaData := opts.meta.getD []
  let hdrs := opts.headers.getD {}
  { copySource := sourceBucket ++ "/" ++ source
    bucket := bucket
    key := key
    metadata := metaData
    contentType := jsOrStr opts.contentType "text/plain"
    metadataDirective := if metaData.isEmpty then "COPY" else "REPLACE"
    cacheControl := if jsTruthyStr hdrs.cacheControl then hdrs.cacheControl else none
    contentDisposition :=
      if jsTruthyStr hdrs.contentDisposition then hdrs.contentDisposition else none
    contentEncoding :=
      if jsTruthyStr hdrs.contentEncoding then hdrs.contentEncoding else none }

/-- The backend's `CopyObjectCommand` semantics on the model store: with
directive `REPLACE` the destination gets the metadata supplied in the
request; with directive `COPY` the source object's metadata is carried
over unchanged.  Fails with `NoSuchKey` when the source is absent. -/
def s3SendCopy (st : Store) (sourceKey : String) (p : CopyObjectParams) :
    Except S3Error Store :=
  match st.find sourceKey with
  | none => .error .noSuchKey
  | some src =>
    let destMeta := if p.metadataDirective = "REPLACE" then p.metadata else src.metadata
    .ok (st.set p.key { src with metadata := destMeta, contentType := p.contentType })

/-- Dispatch a copy request built by `_copy` and apply it to the store. -/
def awsCopyApply (cfg : ClientConfig) (st : Store) (key source : String)
    (options : Option PutOptions) : Except S3Error Store :=
  s3SendCopy st source (copyParams cfg key source options)

/-- The `async-retry` loop as configured in `_copy`
(`retry(fn, { retries, maxTimeout })`): run attempt `i`; on success stop,
on failure retry while fuel remains.  Per the library's documented
semantics `retries` counts the retries after the initial attempt, so
`retryRun f 0 retries` performs up to `retries + 1` attempts in total. -/
def retryRun (f : Nat → Except String Unit) : Nat → Nat → Except String Unit
  | i, fuel =>
    match f i with
    | .ok a => .ok a
    | .error e =>
      match fuel with
      | 0 => .error e
      | fuel' + 1 => retryRun f (i + 1) fuel'

/-- The inter-attempt wait of `async-retry`/`node-retry` as configured in
`_copy` (`maxTimeout: 2000`, library defaults `minTimeout = 1000`,
`factor = 2`): `min(minTimeout * factor^attempt, maxTimeout)`
milliseconds before retry number `attempt`. -/
def retryTimeout (attempt : Nat) : Nat :=
  min (1000 * 2 ^ attempt) 2000

/-- `AWSClient._copy`'s send (src/aws.ts lines 202-206): the single send
wrapped in `retry(..., { retries: 3, maxTimeout: 2000 })`.  `send p i` is
the outcome of attempt number `i` of sending the built copy request `p`. -/
def awsCopySend (send : CopyObjectParams → Nat → Except String Unit)
    (cfg : ClientConfig) (key source : String) (options : Option PutOptions) :
    Except String Unit :=
  retryRun (send (copyParams cfg key source options)) 0 3

/-- `AWSClient._put`'s send (src/aws.ts line 157): one send, no retry
wrapper — the result of the single attempt is the result of the call. -/
def awsPutSend (send : PutObjectParams → Except String Unit)
    (cfg : ClientConfig) (key : String) (data : Bytes)
    (options : Option PutOptions) : Except String Unit :=
  send (putParams cfg key data options)

/-- The fields of `DeleteObjectCommand`'s input used by `_del`. -/
structure DelParams where
  bucket : String
  key : String
deriving Repr, DecidableEq

/-- `AWSClient._del` (src/aws.ts lines 208-215): one send, no retry. -/
def awsDelSend (send : DelParams → Except String Unit) (cfg : ClientConfig)
    (key : String) : Except String Unit :=
  send { bucket := cfg.getBucketName key, key := key }

/-- The fields of `DeleteObjectsCommand`'s input used by `_delMulti`:
bucket resolved from the first key, quiet mode. -/
structure DelMultiParams where
  bucket : String
  keys : List String
  quiet : Bool
deriving Repr, DecidableEq

/-- `AWSClient._delMulti` (src/aws.ts lines 221-232): one send, no retry;
on success the deleted keys reported by the backend are filtered for
presence and returned, a failure propagates unchanged. -/
def awsDelMultiSend (send : DelMultiParams → Except String (List (Option String)))
    (cfg : ClientConfig) (keys : List String) : Except String (List String) :=
  match send { bucket := cfg.getBucketName (keys.headD "")
               keys := keys, quiet := true } with
  | .error e => .error e
  | .ok deleted => .ok (deleted.filterMap id)

/-- Follows the spec's words, for comparison with `awsCopySend` (claim C2):
a bounded retry of "up to 3 attempts" — attempts stop after the third. -/
def specThreeAttemptCopy (send : CopyObjectParams → Nat → Except String Unit)
    (cfg : ClientConfig) (key source : String) (options : Option PutOptions) :
    Except String Unit :=
  retryRun (send (copyParams cfg key source options)) 0 2

/-- A listing element as received from the backend (`Contents` entries). -/
structure RawObjDesc where
  key : Option String
  etag : Option String
  lastModifiedMs : Option Nat
  size : Option Nat
deriving Repr, DecidableEq

/-- A raw `ListObjects` (v1) response from the backend: every field
optional, as on the wire. -/
structure RawListV1Response where
  isTruncated : Option Bool := none
  contents : Option (List RawObjDesc) := none
  commonPrefixes : Option (List (Option String)) := none
  nextMarker : Option String := none
deriving Repr, DecidableEq

/-- A raw `ListObjectsV2` response from the backend. -/
structure RawListV2Response where
  isTruncated : Option Bool := none
  contents : Option (List RawObjDesc) := none
  commonPrefixes : Option (List (Option String)) := none
  nextContinuationToken : Option String := none
deriving Repr, DecidableEq

/-- An Object Descriptor of a Listing Page (`IListObjectOutput` element). -/
structure ObjDesc where
  key : Option String
  etag : Option String
  lastModifiedMs : Option Nat
  size : Option Nat
deriving Repr, DecidableEq

/-- The Listing Page built by `_listDetails` (`IListObjectOutput`). -/
structure ListV1Output where
  isTruncated : Bool
  objects : List ObjDesc
  prefixes : List String
  nextMarker : Option String
deriving Repr, DecidableEq

/-- The Listing Page built by `_listDetailsV2` (`IListObjectV2Output`);
its common-prefix field is spelled `prefix` in the source, renamed here. -/
structure ListV2Output where
  isTruncated : Bool
  objects : List ObjDesc
  prefixList : List String
  nextContinuationToken : Option String
deriving Repr, DecidableEq

/-- The response-normalization of `AWSClient._listDetails` (src/aws.ts
lines 348-364): `isTruncated` defaulted to `false` (`data.IsTruncated ||
false`), contents mapped to descriptors, common prefixes projected and
null-filtered, and `nextMarker` passed through unchanged. -/
def awsListDetails (data : RawListV1Response) : ListV1Output :=
  { isTruncated := data.isTruncated.getD false
    objects := (data.contents.getD []).map (fun o =>
      { key := o.key, etag := o.etag, lastModifiedMs := o.lastModifiedMs
        size := o.size })
    prefixes := (data.commonPrefixes.getD []).filterMap id
    nextMarker := data.nextMarker }

/-- The response-normalization of `AWSClient._listDetailsV2` (src/aws.ts
lines 391-409): same shape, with `nextContinuationToken` passed through
unchanged. -/
def awsListDetailsV2 (data : RawListV2Response) : ListV2Output :=
  { isTruncated := data.isTruncated.getD false
    objects := (data.contents.getD []).map (fun o =>
      { key := o.key, etag := o.etag, lastModifiedMs := o.lastModifiedMs
        size := o.size })
    prefixList := (data.commonPrefixes.getD []).filterMap id
    nextContinuationToken := data.nextContinuationToken }

/-- A cursor field that is absent or empty (a falsy cursor). -/
def cursorAbsentOrEmpty : Option String → Prop
  | none => True
  | some s => s = ""

instance (o : Option String) : Decidable (cursorAbsentOrEmpty o) := by
  cases o with
  | none => exact .isTrue trivial
  | some s => exact (inferInstance : Decidable (s = ""))

/-- `IAWSOptions` — the construction option bag of the S3-family adapter. -/
structure AWSOptions where
  accessKeyID : String
  accessKeySecret : String
  endpoint : Option String := none
  s3ForcePathStyle : Option Bool := none
  region : Option String := none
deriving Repr, DecidableEq

/-- The `S3ClientConfig` assembled by the constructor — the network client
handle is created from exactly this value (`new S3Client(awsClientOptions)`). -/
structure S3ClientConfigM where
  accessKeyID : String
  accessKeySecret : String
  endpoint : Option String := none
  region : Option String := none
  forcePathStyle : Bool := false
deriving Repr, DecidableEq

/-- `AWSClient`'s constructor validation (src/aws.ts lines 56-89): with
path-style addressing (`!!options.s3ForcePathStyle`) an endpoint is
asserted (region defaulted to `cn-north-1`); otherwise a region is
asserted and a truthy endpoint is optional.  An `Except.error` is the
assertion failing before `new S3Client` runs; an `Except.ok` carries the
config the client handle is then created from. -/
def awsConstructor (options : AWSOptions) : Except String S3ClientConfigM :=
  let s3ForcePathStyle := options.s3ForcePathStyle.getD false
  if s3ForcePathStyle then
    if jsTruthyStr options.endpoint then
      .ok { accessKeyID := options.accessKeyID
            accessKeySecret := options.accessKeySecret
            endpoint := options.endpoint
            region := some (jsOrStr options.region "cn-north-1")
            forcePathStyle := true }
    else
      .error "options.endpoint is required when options.s3ForcePathStyle = true"
  else
    if jsTruthyStr options.region then
      .ok { accessKeyID := options.accessKeyID
            accessKeySecret := options.accessKeySecret
            endpoint := if jsTruthyStr options.endpoint then options.endpoint else none
            region := options.region
            forcePathStyle := false }
    else
      .error "options.region is required when options.s3ForcePathStyle = false"

/-- `ISignatureUrlOptions` (`{ expires?, method? }`). -/
structure SignatureUrlOptions where
  expires : Option Nat := none
  method : Option String := none
deriving Repr, DecidableEq

/-- The request the presigner is handed: bucket, key, expiry seconds and
the command kind (`GET` or `PUT`). -/
structure PresignRequest where
  bucket : String
  key : String
  expiresIn : Nat
  method : String
deriving Repr, DecidableEq

/-- `AWSClient._signatureUrl` (src/aws.ts lines 412-434): expiry defaults
to 600 (a truthy `options.expires` overrides it), the command is a get
unless `options.method === 'PUT'`, and the call always resolves to the
string produced by the presigner `getSignedUrl` — there is no `null`
branch. `presign` models the external presigner. -/
def awsSignatureUrl (presign : PresignRequest → String) (cfg : ClientConfig)
    (key : String) (options : Option SignatureUrlOptions) : Option String :=
  let bucket := cfg.getBucketName key
  let expiresIn :=
    match options with
    | some o => match o.expires with
      | some n => if n ≠ 0 then n else 600
      | none => 600
    | none => 600
  let method :=
    match options with
    | some o => if o.method = some "PUT" then "PUT" else "GET"
    | none => "GET"
  some (presign { bucket := bucket, key := key, expiresIn := expiresIn
                  method := method })

/-- `AWOS.delMulti` — the façade's guard (src/aws.ts lines 552-557 of the
façade document): more than 1000 keys throws
`'Cannot delete more than 1000 keys'` before the adapter is consulted;
otherwise the call is forwarded to the selected adapter unchanged.
`adapter` is the selected backend adapter's `delMulti`. -/
def awosDelMulti (adapter : List String → Except String (List String))
    (keys : List String) : Except String (List String) :=
  if keys.length > 1000 then .error "Cannot delete more than 1000 keys"
  else adapter keys

/-- Follows the spec's words, for comparison in claim C7: a metadata map
`M` restricted to a set of requested keys. -/
def specRestrictMeta (m : List (String × String)) (ks : List String) :
    List (String × String) :=
  ks.filterMap (fun k => (m.lookup k).map (fun v => (k, v)))

/-- A configuration with compression off (used to instantiate theorems). -/
def cfg0 : ClientConfig :=
  { compressType := none, compressLimit := 0, compress := id, decompress := id
    getBucketName := fun _ => "bucket" }

/-- A configuration with a gzip codec and threshold 3; the codec prepends
the two gzip magic bytes, so decompress ∘ compress = id. -/
def cfgZ : ClientConfig :=
  { compressType := some "gzip", compressLimit := 3
    compress := fun b => 31 :: 139 :: b
    decompress := fun b => b.drop 2
    getBucketName := fun _ => "bucket" }

/-- An attempt behavior that fails on the first three attempts (numbers 0,
1, 2) and succeeds from the fourth on. -/
def failThrice : CopyObjectParams → Nat → Except String Unit :=
  fun _ i => if i < 3 then .error "boom" else .ok ()

/-- A fixture object stored without a content-encoding marker. -/
def plainObj : StoredObject :=
  { body := [10, 20, 30], metadata := [("x", "1")], contentType := "text/plain"
    contentEncoding := none, etag := "e1", lastModifiedMs := 7 }

/-- A fixture object stored with a `gzip` content-encoding marker; its body
is below any plausible threshold, so only the marker can trigger
decompression. -/
def gzObj : StoredObject :=
  { body := [31, 139, 42], metadata := [], contentType := "text/plain"
    contentEncoding := some "gzip", etag := "e2", lastModifiedMs := 9 }

theorem store_find_set (st : Store) (k : String) (o : StoredObject) :
    (st.set k o).find k = some o := by
  simp [Store.set, Store.find, List.lookup]

theorem s3SendCopy_ok (st : Store) (skey : String) (p : CopyObjectParams)
    (src : StoredObject) (h : st.find skey = some src) :
    s3SendCopy st skey p = .ok (st.set p.key
      { src with
        metadata := if p.metadataDirective = "REPLACE" then p.metadata else src.metadata
        contentType := p.contentType }) := by
  unfold s3SendCopy
  rw [h]

theorem lookup_mem {M : List (String × String)} {k v : String}
    (h : M.lookup k = some v) : (k, v) ∈ M := by
  induction M with
  | nil => simp [List.lookup] at h
  | cons p t ih =>
    rw [List.lookup] at h
    by_cases hk : k = p.1
    · simp [hk] at h
      subst hk
      cases p with
      | mk a b =>
        simp at h ⊢
        exact Or.inl h.symm
    · have : (k == p.1) = false := by simp [hk]
      rw [this] at h
      exact List.mem_cons_of_mem _ (ih h)

theorem getWithMetadata_found (cfg : ClientConfig) (st : Store) (key : String)
    (metaKeys : List String) (obj : StoredObject)
    (hobj : st.find key = some obj) :
    getWithMetadata cfg st key metaKeys = .ok (some
      { content := if encodingIsGzip obj.contentEncoding
                   then cfg.decompress obj.body else obj.body
        meta := metaKeys.filterMap (fun k =>
          match obj.metadata.lookup k with
          | some v => if v ≠ "" then some (k, v) else none
          | none => none)
        headers := { contentType := obj.contentType, etag := obj.etag
                     contentLength := obj.body.length } }) := by
  unfold getWithMetadata s3SendGet
  rw [hobj]

theorem awsGet_eq_getWithMetadata (cfg : ClientConfig) (st : Store)
    (key : String) (ks : List String) :
    awsGet cfg st key ks = getWithMetadata cfg st key ks := by
  unfold awsGet
  cases h : getWithMetadata cfg st key ks with
  | error e => rfl
  | ok o => cases o <;> rfl

theorem awsGetAsBuffer_eq_getWithMetadata (cfg : ClientConfig) (st : Store)
    (key : String) (ks : List String) :
    awsGetAsBuffer cfg st key ks = getWithMetadata cfg st key ks := by
  unfold awsGetAsBuffer
  cases h : getWithMetadata cfg st key ks with
  | error e => rfl
  | ok o => cases o <;> rfl

theorem codeMeta_eq_spec (M : List (String × String)) (ks : List String)
    (hvals : ∀ p ∈ M, p.2 ≠ "") :
    ks.filterMap (fun k =>
      match M.lookup k with
      | some v => if v ≠ "" then some (k, v) else none
      | none => none) = specRestrictMeta M ks := by
  unfold specRestrictMeta
  apply List.filterMap_congr
  intro a _
  cases hl : M.lookup a with
  | none => rfl
  | some v =>
    have hv : v ≠ "" := hvals (a, v) (lookup_mem hl)
    simp [hv]

theorem specRestrict_self : ∀ (M : List (String × String)),
    (M.map Prod.fst).Nodup → specRestrictMeta M (M.map Prod.fst) = M := by
  intro M
  induction M with
  | nil => intro _; rfl
  | cons p t ih =>
    intro h
    obtain ⟨k, v⟩ := p
    rw [List.map_cons, List.nodup_cons] at h
    obtain ⟨hk, ht⟩ := h
    unfold specRestrictMeta
    rw [List.map_cons, List.filterMap_cons]
    have h1 : List.lookup k ((k, v) :: t) = some v := by
      rw [List.lookup]
      simp
    rw [h1]
    have h2 : List.filterMap
        (fun k' => (List.lookup k' ((k, v) :: t)).map (fun w => (k', w)))
        (t.map Prod.fst)
        = List.filterMap
        (fun k' => (List.lookup k' t).map (fun w => (k', w)))
        (t.map Prod.fst) := by
      apply List.filterMap_congr
      intro a ha
      have hne : a ≠ k := fun hc => hk (hc ▸ ha)
      rw [List.lookup]
      have hb : (a == k) = false := by
        simp [hne]
      rw [hb]
    simp only [Option.map_some']
    rw [h2]
    have h3 := ih ht
    unfold specRestrictMeta at h3
    rw [h3]

theorem retryRun_ok_iff (f : Nat → Except String Unit) :
    ∀ (fuel i : Nat), retryRun f i fuel = .ok () ↔ ∃ j, j ≤ fuel ∧ f (i + j) = .ok () := by
  intro fuel
  induction fuel with
  | zero =>
    intro i
    rw [retryRun]
    cases hf : f i with
    | ok a =>
      cases a
      simp [hf]
    | error e => simp [hf]
  | succ n ih =>
    intro i
    rw [retryRun]
    cases hf : f i with
    | ok a =>
      cases a
      constructor
      · intro _; exact ⟨0, Nat.zero_le _, by simpa using hf⟩
      · intro _; rfl
    | error e =>
      rw [ih (i + 1)]
      constructor
      · rintro ⟨j, hj, hfj⟩
        exact ⟨j + 1, Nat.succ_le_succ hj, by
          have : i + 1 + j = i + (j + 1) := by omega
          rwa [this] at hfj⟩
      · rintro ⟨j, hj, hfj⟩
        cases j with
        | zero =>
          rw [Nat.add_zero] at hfj
          rw [hf] at hfj
          cases hfj
        | succ j' =>
          refine ⟨j', Nat.le_of_succ_le_succ hj, ?_⟩
          have : i + 1 + j' = i + (j' + 1) := by omega
          rwa [this]

theorem retryRun_congr (f g : Nat → Except String Unit) :
    ∀ (fuel i : Nat), (∀ j, j ≤ fuel → f (i + j) = g (i + j)) →
      retryRun f i fuel = retryRun g i fuel := by
  intro fuel
  induction fuel with
  | zero =>
    intro i h
    have h0 := h 0 (Nat.le_refl 0)
    rw [Nat.add_zero] at h0
    rw [retryRun, retryRun, h0]
  | succ n ih =>
    intro i h
    have h0 := h 0 (Nat.zero_le _)
    rw [Nat.add_zero] at h0
    rw [retryRun, retryRun, h0]
    cases g i with
    | ok a => rfl
    | error e =>
      have := ih (i + 1) (fun j hj => by
        have : i + 1 + j = i + (j + 1) := by omega
        rw [this]
        exact h (j + 1) (Nat.succ_le_succ hj))
      simp [this]

/-- C1: for every key that does not exist in the backend, `get`,
`getAsBuffer` and `head` return `null` and never throw — the backend's
not-found error is caught inside the adapter and normalized to a `null`
result, identically for both adapters (the OSS adapter is modelled from
the spec). -/
theorem c1_not_found_normalized_to_null (cfg : ClientConfig) (st : Store)
    (key : String) (metaKeys : List String) (hopts : Option HeadOptions)
    (h : st.find key = none) :
    awsGet cfg st key metaKeys = .ok none ∧
    awsGetAsBuffer cfg st key metaKeys = .ok none ∧
    awsHead st key hopts = .ok none ∧
    ossGet st key metaKeys = .ok none ∧
    ossGetAsBuffer st key metaKeys = .ok none ∧
    ossHead st key = .ok none := by
  unfold awsGet awsGetAsBuffer awsHead ossGet ossGetAsBuffer ossHead
    getWithMetadata s3SendGet s3SendHead ossSendGet
  rw [h]
  simp

/-- Witness for C1 at the empty store and key `k`. -/
theorem c1_not_found_normalized_to_null_witness :
    Store.find [] "k" = none ∧
    awsGet cfg0 [] "k" [] = .ok none ∧
    awsHead [] "k" (some { withStandardHeaders := true }) = .ok none ∧
    ossGet [] "k" [] = .ok none := by
  have h := c1_not_found_normalized_to_null cfg0 [] "k" []
    (some { withStandardHeaders := true }) rfl
  exact ⟨rfl, h.1, h.2.2.1, h.2.2.2.1⟩

/-- C3: the façade's `delMulti` rejects, before contacting any backend,
whenever it is given more than 1000 keys (for every adapter the result is
the same error), and a call with exactly 1000 keys is forwarded to the
selected adapter unchanged. -/
theorem c3_delMulti_thousand_key_ceiling
    (adapter : List String → Except String (List String))
    (keys big : List String)
    (h1000 : keys.length = 1000) (hbig : big.length > 1000) :
    awosDelMulti adapter keys = adapter keys ∧
    (∀ a2 : List String → Except String (List String),
        awosDelMulti a2 big = .error "Cannot delete more than 1000 keys") := by
  unfold awosDelMulti
  constructor
  · rw [h1000]
    simp
  · intro a2
    simp [hbig]

/-- Witness for C3: 1000 keys are forwarded (and resolve when the adapter
resolves), 1001 keys are rejected by the façade without the adapter. -/
theorem c3_delMulti_thousand_key_ceiling_witness :
    (List.replicate 1000 "k").length = 1000 ∧
    (List.replicate 1001 "k").length > 1000 ∧
    awosDelMulti (fun ks => .ok ks) (List.replicate 1000 "k")
      = .ok (List.replicate 1000 "k") ∧
    awosDelMulti (fun _ => .ok []) (List.replicate 1001 "k")
      = .error "Cannot delete more than 1000 keys" := by
  have hlen : (List.replicate 1000 "k").length = 1000 := List.length_replicate 1000 "k"
  have hlen1 : (List.replicate 1001 "k").length > 1000 := by
    rw [List.length_replicate]
    omega
  have h := c3_delMulti_thousand_key_ceiling (fun ks => .ok ks)
    (List.replicate 1000 "k") (List.replicate 1001 "k") hlen hlen1
  exact ⟨hlen, hlen1, h.1, h.2 (fun _ => .ok [])⟩

/-- C9: construction of the S3-family adapter fails with a descriptive
error — before any network client handle is created, since the error
replaces the very config the handle is built from — whenever path-style
addressing is requested without a truthy endpoint, or standard addressing
is requested without a truthy region; with the required field present
construction succeeds, and in standard mode the endpoint stays optional. -/
theorem c9_constructor_validation (o : AWSOptions) :
    (o.s3ForcePathStyle.getD false = true → jsTruthyStr o.endpoint = false →
      awsConstructor o =
        .error "options.endpoint is required when options.s3ForcePathStyle = true") ∧
    (o.s3ForcePathStyle.getD false = false → jsTruthyStr o.region = false →
      awsConstructor o =
        .error "options.region is required when options.s3ForcePathStyle = false") ∧
    (o.s3ForcePathStyle.getD false = true → jsTruthyStr o.endpoint = true →
      ∃ c : S3ClientConfigM, awsConstructor o = .ok c ∧ c.forcePathStyle = true) ∧
    (o.s3ForcePathStyle.getD false = false → jsTruthyStr o.region = true →
      ∃ c : S3ClientConfigM, awsConstructor o = .ok c ∧
        c.endpoint = (if jsTruthyStr o.endpoint then o.endpoint else none)) := by
  unfold awsConstructor
  refine ⟨?_, ?_, ?_, ?_⟩
  · intro hps hep
    simp [hps, hep]
  · intro hps hrg
    simp [hps, hrg]
  · intro hps hep
    simp [hps, hep]
  · intro hps hrg
    simp [hps, hrg]

/-- Witness for C9: both failure modes and both success modes at concrete
option bags (standard mode succeeding with no endpoint at all). -/
theorem c9_constructor_validation_witness :
    awsConstructor { accessKeyID := "id", accessKeySecret := "s"
                     s3ForcePathStyle := some true }
      = .error "options.endpoint is required when options.s3ForcePathStyle = true" ∧
    awsConstructor { accessKeyID := "id", accessKeySecret := "s" }
      = .error "options.region is required when options.s3ForcePathStyle = false" ∧
    (∃ c : S3ClientConfigM,
      awsConstructor { accessKeyID := "id", accessKeySecret := "s"
                       s3ForcePathStyle := some true
                       endpoint := some "http://minio:9000" } = .ok c ∧
      c.forcePathStyle = true) ∧
    (∃ c : S3ClientConfigM,
      awsConstructor { accessKeyID := "id", accessKeySecret := "s"
                       region := some "us-east-1" } = .ok c ∧
      c.endpoint = none) := by
  refine ⟨?_, ?_, ?_, ?_⟩
  · exact (c9_constructor_validation _).1 rfl rfl
  · exact (c9_constructor_validation _).2.1 rfl rfl
  · exact (c9_constructor_validation
      { accessKeyID := "id", accessKeySecret := "s"
        s3ForcePathStyle := some true
        endpoint := some "http://minio:9000" }).2.2.1 rfl (by decide)
  · obtain ⟨c, hc, he⟩ := (c9_constructor_validation
      { accessKeyID := "id", accessKeySecret := "s"
        region := some "us-east-1" }).2.2.2 rfl (by decide)
    exact ⟨c, hc, by simpa using he⟩

/-- C10: the S3-family adapter's `signatureUrl` never returns `null` — for
every key and options it resolves to the URL string produced by the
presigner, with the key and resolved bucket of the request, so the `null`
branch of the unified contract is unreachable on this adapter. -/
theorem c10_signature_url_never_null (presign : PresignRequest → String)
    (cfg : ClientConfig) (key : String)
    (options : Option SignatureUrlOptions) :
    (awsSignatureUrl presign cfg key options).isSome = true ∧
    (∃ req : PresignRequest,
      awsSignatureUrl presign cfg key options = some (presign req) ∧
      req.key = key ∧ req.bucket = cfg.getBucketName key ∧
      (options = none → req.expiresIn = 600 ∧ req.method = "GET")) := by
  unfold awsSignatureUrl
  cases options with
  | none => exact ⟨rfl, ⟨_, rfl, rfl, rfl, fun _ => ⟨rfl, rfl⟩⟩⟩
  | some o => exact ⟨rfl, ⟨_, rfl, rfl, rfl, fun hc => by cases hc⟩⟩

/-- C2 counterexample: with an underlying send that fails on each of the
first three attempts and succeeds on the fourth, the code's copy succeeds,
while a retry bounded at 3 total attempts
(`specThreeAttemptCopy`, the spec's "up to 3 attempts") fails — the
configured `retries: 3` are retries after the initial attempt, i.e. up to
4 attempts in total. -/
theorem c2_copy_retry_counterexample :
    awsCopySend failThrice cfg0 "dst" "src" none = .ok () ∧
    specThreeAttemptCopy failThrice cfg0 "dst" "src" none = .error "boom" ∧
    failThrice (copyParams cfg0 "dst" "src" none) 0 = .error "boom" ∧
    failThrice (copyParams cfg0 "dst" "src" none) 1 = .error "boom" ∧
    failThrice (copyParams cfg0 "dst" "src" none) 2 = .error "boom" := by
  refine ⟨?_, ?_, rfl, rfl, rfl⟩ <;> rfl

/-- C2 (amended): the copy operation, and only the copy operation, is
wrapped in a bounded automatic retry of up to 4 total attempts (the
initial attempt plus 3 retries), with each inter-attempt wait capped at
2000 ms, retried on any failure of the underlying send (success exactly
when one of attempts 0..3 succeeds, attempts beyond the fourth never
consulted); every other mutating operation — put, del, delMulti — issues
its send exactly once and propagates the first failure directly. -/
theorem c2_copy_bounded_retry_others_single_send
    (cfg : ClientConfig) (key source dkey : String) (data : Bytes)
    (options : Option PutOptions) (keys : List String) (e : String)
    (sendC : CopyObjectParams → Nat → Except String Unit)
    (sendP : PutObjectParams → Except String Unit)
    (sendD : DelParams → Except String Unit)
    (sendDM : DelMultiParams → Except String (List (Option String)))
    (hP : sendP (putParams cfg key data options) = .error e)
    (hD : sendD { bucket := cfg.getBucketName dkey, key := dkey } = .error e)
    (hDM : sendDM { bucket := cfg.getBucketName (keys.headD "")
                    keys := keys, quiet := true } = .error e) :
    (awsCopySend sendC cfg key source options = .ok () ↔
      ∃ i, i ≤ 3 ∧ sendC (copyParams cfg key source options) i = .ok ()) ∧
    (∀ sendC' : CopyObjectParams → Nat → Except String Unit,
      (∀ i, i ≤ 3 → sendC (copyParams cfg key source options) i
          = sendC' (copyParams cfg key source options) i) →
      awsCopySend sendC cfg key source options
        = awsCopySend sendC' cfg key source options) ∧
    (∀ a, retryTimeout a ≤ 2000) ∧
    awsPutSend sendP cfg key data options = .error e ∧
    awsDelSend sendD cfg dkey = .error e ∧
    awsDelMultiSend sendDM cfg keys = .error e := by
  refine ⟨?_, ?_, ?_, hP, hD, ?_⟩
  · unfold awsCopySend
    have := retryRun_ok_iff (sendC (copyParams cfg key source options)) 3 0
    simpa using this
  · intro sendC' hagree
    unfold awsCopySend
    exact retryRun_congr _ _ 3 0 (fun j hj => by simpa using hagree j hj)
  · intro a
    exact Nat.min_le_right _ _
  · unfold awsDelMultiSend
    rw [hDM]

/-- Witness for C2 (amended): concrete failing sends for put, del and
delMulti, and the retry equivalence evaluated at `failThrice` — the
success of the fourth attempt makes the copy succeed. -/
theorem c2_copy_bounded_retry_others_single_send_witness :
    awsPutSend (fun _ => .error "down") cfg0 "k" [1] none = .error "down" ∧
    awsDelSend (fun _ => .error "down") cfg0 "k" = .error "down" ∧
    awsDelMultiSend (fun _ => .error "down") cfg0 ["k"] = .error "down" ∧
    awsCopySend failThrice cfg0 "dst" "src" none = .ok () ∧
    retryTimeout 5 ≤ 2000 := by
  have h := c2_copy_bounded_retry_others_single_send cfg0 "k" "src" "k" [1]
    none ["k"] "down" failThrice (fun _ => .error "down")
    (fun _ => .error "down") (fun _ => .error "down") rfl rfl rfl
  refine ⟨h.2.2.2.1, h.2.2.2.2.1, h.2.2.2.2.2, ?_, h.2.2.1 5⟩
  have h2 := c2_copy_bounded_retry_others_single_send cfg0 "dst" "src" "k" [1]
    none ["k"] "down" failThrice (fun _ => .error "down")
    (fun _ => .error "down") (fun _ => .error "down") rfl rfl rfl
  exact h2.1.mpr ⟨3, Nat.le_refl 3, rfl⟩

/-- C4: for every copy call, a non-empty caller metadata map makes the
copy request carry the `REPLACE` directive with the supplied map as its
metadata (and the destination ends with exactly that metadata); an empty
or absent map makes it carry the `COPY` directive (and the destination
ends with the source object's metadata unchanged). -/
theorem c4_copy_metadata_directive
    (cfg : ClientConfig) (key source : String) (options : Option PutOptions)
    (st : Store) (src : StoredObject) (hsrc : st.find source = some src) :
    (((options.getD {}).meta.getD []) ≠ [] →
      (copyParams cfg key source options).metadataDirective = "REPLACE" ∧
      (copyParams cfg key source options).metadata
        = ((options.getD {}).meta.getD []) ∧
      ∃ st' : Store, awsCopyApply cfg st key source options = .ok st' ∧
        (st'.find key).map StoredObject.metadata
          = some ((options.getD {}).meta.getD [])) ∧
    (((options.getD {}).meta.getD []) = [] →
      (copyParams cfg key source options).metadataDirective = "COPY" ∧
      ∃ st' : Store, awsCopyApply cfg st key source options = .ok st' ∧
        (st'.find key).map StoredObject.metadata = some src.metadata) := by
  constructor
  · intro hne
    have hdir : (copyParams cfg key source options).metadataDirective = "REPLACE" := by
      unfold copyParams
      simp [List.isEmpty_iff, hne]
    have hmeta : (copyParams cfg key source options).metadata
        = ((options.getD {}).meta.getD []) := rfl
    refine ⟨hdir, hmeta, ?_⟩
    unfold awsCopyApply
    rw [s3SendCopy_ok st source _ src hsrc]
    refine ⟨_, rfl, ?_⟩
    rw [show (copyParams cfg key source options).key = key from rfl,
      store_find_set]
    simp [hdir, hmeta]
  · intro heq
    have hdir : (copyParams cfg key source options).metadataDirective = "COPY" := by
      unfold copyParams
      simp [List.isEmpty_iff, heq]
    refine ⟨hdir, ?_⟩
    unfold awsCopyApply
    rw [s3SendCopy_ok st source _ src hsrc]
    refine ⟨_, rfl, ?_⟩
    rw [show (copyParams cfg key source options).key = key from rfl,
      store_find_set]
    simp [hdir]

/-- Witness for C4: copying `src` (stored metadata `{x: 1}`) with metadata
`{y: 2}` replaces the destination metadata with `{y: 2}`; copying with an
empty options bag carries `{x: 1}` over. -/
theorem c4_copy_metadata_directive_witness :
    ((copyParams cfg0 "dst" "src" (some { meta := some [("y", "2")] })).metadataDirective
        = "REPLACE" ∧
      ∃ st' : Store,
        awsCopyApply cfg0 [("src", plainObj)] "dst" "src"
          (some { meta := some [("y", "2")] }) = .ok st' ∧
        (st'.find "dst").map StoredObject.metadata = some [("y", "2")]) ∧
    ((copyParams cfg0 "dst" "src" (some {})).metadataDirective = "COPY" ∧
      ∃ st' : Store,
        awsCopyApply cfg0 [("src", plainObj)] "dst" "src" (some {}) = .ok st' ∧
        (st'.find "dst").map StoredObject.metadata = some [("x", "1")]) := by
  constructor
  · have h := (c4_copy_metadata_directive cfg0 "dst" "src"
      (some { meta := some [("y", "2")] }) [("src", plainObj)] plainObj rfl).1
      (by decide)
    exact ⟨h.1, h.2.2⟩
  · have h := (c4_copy_metadata_directive cfg0 "dst" "src" (some {})
      [("src", plainObj)] plainObj rfl).2 rfl
    exact ⟨h.1, h.2⟩

/-- C5: on put, compression is applied exactly when a codec is configured
(truthy `compressType`) and the payload length is at least
`compressLimit`; then the request body is the compressed bytes and the
content-encoding sent to the backend is forced to `gzip`, whatever the
caller supplied; otherwise the body is the payload unmodified and a truthy
caller-supplied content-encoding (if any) is used. -/
theorem c5_put_compression_policy (cfg : ClientConfig) (key : String)
    (data : Bytes) (options : Option PutOptions) :
    ((jsTruthyStr cfg.compressType = true ∧ data.length ≥ cfg.compressLimit) →
      (putParams cfg key data options).body = cfg.compress data ∧
      (putParams cfg key data options).contentEncoding = some "gzip") ∧
    (¬ (jsTruthyStr cfg.compressType = true ∧ data.length ≥ cfg.compressLimit) →
      (putParams cfg key data options).body = data ∧
      (putParams cfg key data options).contentEncoding =
        (if jsTruthyStr ((options.getD {}).headers.getD {}).contentEncoding
         then ((options.getD {}).headers.getD {}).contentEncoding else none)) := by
  constructor
  · intro hc
    unfold putParams
    rw [if_pos hc]
    exact ⟨rfl, rfl⟩
  · intro hc
    unfold putParams
    rw [if_neg hc]
    by_cases he : jsTruthyStr ((options.getD {}).headers.getD {}).contentEncoding = true
    · rw [if_pos he, if_pos he]
      exact ⟨rfl, rfl⟩
    · rw [if_neg he, if_neg he]
      exact ⟨rfl, rfl⟩

/-- Witness for C5: with the gzip codec and threshold 3 configured, a
4-byte payload is compressed and its caller-supplied `br` encoding is
overridden by `gzip`; a 2-byte payload stays uncompressed and keeps the
caller's `br` encoding. -/
theorem c5_put_compression_policy_witness :
    (putParams cfgZ "k" [1, 2, 3, 4]
        (some { headers := some { contentEncoding := some "br" } })).body
      = [31, 139, 1, 2, 3, 4] ∧
    (putParams cfgZ "k" [1, 2, 3, 4]
        (some { headers := some { contentEncoding := some "br" } })).contentEncoding
      = some "gzip" ∧
    (putParams cfgZ "k" [1, 2]
        (some { headers := some { contentEncoding := some "br" } })).body
      = [1, 2] ∧
    (putParams cfgZ "k" [1, 2]
        (some { headers := some { contentEncoding := some "br" } })).contentEncoding
      = some "br" := by
  have h1 := (c5_put_compression_policy cfgZ "k" [1, 2, 3, 4]
    (some { headers := some { contentEncoding := some "br" } })).1
    ⟨by decide, by decide⟩
  have h2 := (c5_put_compression_policy cfgZ "k" [1, 2]
    (some { headers := some { contentEncoding := some "br" } })).2
    (by decide)
  refine ⟨h1.1, h1.2, h2.1, ?_⟩
  rw [h2.2]
  rfl

/-- C6: on get/getAsBuffer the decision to decompress is driven solely by
the stored content-encoding marker of the fetched object — decompression
is applied exactly when the marker starts with `gzip`, never based on
payload length or on this instance's own compression configuration (any
configuration with the same `decompress` codec yields the identical
result), and with no marker the bytes come back unmodified. -/
theorem c6_get_decompression_marker_driven
    (cfg cfg2 : ClientConfig) (st : Store) (key : String)
    (metaKeys : List String) (obj : StoredObject)
    (hobj : st.find key = some obj)
    (hdec : cfg2.decompress = cfg.decompress) :
    getWithMetadata cfg st key metaKeys = .ok (some
      { content := if encodingIsGzip obj.contentEncoding
                   then cfg.decompress obj.body else obj.body
        meta := metaKeys.filterMap (fun k =>
          match obj.metadata.lookup k with
          | some v => if v ≠ "" then some (k, v) else none
          | none => none)
        headers := { contentType := obj.contentType, etag := obj.etag
                     contentLength := obj.body.length } }) ∧
    getWithMetadata cfg2 st key metaKeys = getWithMetadata cfg st key metaKeys ∧
    awsGet cfg st key metaKeys = getWithMetadata cfg st key metaKeys ∧
    awsGetAsBuffer cfg st key metaKeys = getWithMetadata cfg st key metaKeys := by
  have hmain : ∀ cfg' : ClientConfig, cfg'.decompress = cfg.decompress →
      getWithMetadata cfg' st key metaKeys = .ok (some
        { content := if encodingIsGzip obj.contentEncoding
                     then cfg.decompress obj.body else obj.body
          meta := metaKeys.filterMap (fun k =>
            match obj.metadata.lookup k with
            | some v => if v ≠ "" then some (k, v) else none
            | none => none)
          headers := { contentType := obj.contentType, etag := obj.etag
                       contentLength := obj.body.length } }) := by
    intro cfg' hdec'
    unfold getWithMetadata s3SendGet
    rw [hobj, hdec']
  have h1 := hmain cfg rfl
  have h2 := hmain cfg2 hdec
  refine ⟨h1, by rw [h1, h2], ?_, ?_⟩
  · unfold awsGet
    rw [h1]
  · unfold awsGetAsBuffer
    rw [h1]

/-- Witness for C6: under `cfg0` (no codec configured, threshold 0, but
`decompress` dropping two leading bytes like `cfgZ`), an object carrying
the `gzip` marker is decompressed and one without a marker is returned
unmodified — the store, not the instance configuration, decides. -/
theorem c6_get_decompression_marker_driven_witness :
    Store.find [("g", gzObj), ("p", plainObj)] "g" = some gzObj ∧
    getWithMetadata cfgZ [("g", gzObj), ("p", plainObj)] "g" []
      = .ok (some { content := [42], meta := []
                    headers := { contentType := "text/plain", etag := "e2"
                                 contentLength := 3 } }) ∧
    getWithMetadata cfgZ [("p", plainObj)] "p" []
      = .ok (some { content := [10, 20, 30], meta := []
                    headers := { contentType := "text/plain", etag := "e1"
                                 contentLength := 3 } }) := by
  have hg := (c6_get_decompression_marker_driven cfgZ cfgZ
    [("g", gzObj), ("p", plainObj)] "g" [] gzObj rfl rfl).1
  have hp := (c6_get_decompression_marker_driven cfgZ cfgZ
    [("p", plainObj)] "p" [] plainObj rfl rfl).1
  refine ⟨rfl, ?_, ?_⟩
  · rw [hg]
    rfl
  · rw [hp]
    rfl

/-- C8: for every Listing Page built by `_listDetails` / `_listDetailsV2`
from a backend response obeying the S3 protocol rule that a non-truncated
response carries no cursor (the hypotheses), `isTruncated = false` implies
the page's cursor field (`nextMarker` for v1, `nextContinuationToken` for
v2) is absent or empty — the adapter passes the cursor through unchanged
and defaults a missing truncation flag to `false`. -/
theorem c8_listing_truncation_cursor_invariant
    (r1 : RawListV1Response) (r2 : RawListV2Response)
    (h1 : r1.isTruncated ≠ some true → cursorAbsentOrEmpty r1.nextMarker)
    (h2 : r2.isTruncated ≠ some true →
      cursorAbsentOrEmpty r2.nextContinuationToken) :
    ((awsListDetails r1).isTruncated = false →
      cursorAbsentOrEmpty (awsListDetails r1).nextMarker) ∧
    ((awsListDetailsV2 r2).isTruncated = false →
      cursorAbsentOrEmpty (awsListDetailsV2 r2).nextContinuationToken) := by
  constructor
  · intro hf
    have : r1.isTruncated ≠ some true := by
      intro hc
      rw [show (awsListDetails r1).isTruncated = r1.isTruncated.getD false from rfl,
        hc] at hf
      exact absurd hf (by decide)
    exact h1 this
  · intro hf
    have : r2.isTruncated ≠ some true := by
      intro hc
      rw [show (awsListDetailsV2 r2).isTruncated = r2.isTruncated.getD false from rfl,
        hc] at hf
      exact absurd hf (by decide)
    exact h2 this

/-- Witness for C8: a final (non-truncated) v1 response with no marker and
a final v2 response with an empty continuation token both normalize to
pages whose cursor is absent or empty. -/
theorem c8_listing_truncation_cursor_invariant_witness :
    (awsListDetails { isTruncated := some false }).isTruncated = false ∧
    cursorAbsentOrEmpty (awsListDetails { isTruncated := some false }).nextMarker ∧
    (awsListDetailsV2 { nextContinuationToken := some "" }).isTruncated = false ∧
    cursorAbsentOrEmpty
      (awsListDetailsV2 { nextContinuationToken := some "" }).nextContinuationToken := by
  have h := c8_listing_truncation_cursor_invariant
    { isTruncated := some false } { nextContinuationToken := some "" }
    (fun _ => trivial) (fun _ => rfl)
  exact ⟨rfl, h.1 rfl, rfl, h.2 rfl⟩

/-- C7 counterexample: `put('k', P, {meta: M})` with `M = {x: ''}` followed
by `get('k', ['x'])` returns metadata `{}`, not `M` restricted to the
requested keys (which is `M` itself) — the read path's truthiness filter
drops the empty-string value, so the round-trip claim fails for this
payload/metadata pair. -/
theorem c7_round_trip_counterexample :
    awsGet cfg0 (awsPut cfg0 [] "k" [104] (some { meta := some [("x", "")] }))
        "k" ["x"]
      = .ok (some { content := [104], meta := []
                    headers := { contentType := "text/plain", etag := ""
                                 contentLength := 1 } }) ∧
    specRestrictMeta [("x", "")] ["x"] = [("x", "")] ∧
    ([] : List (String × String)) ≠ [("x", "")] := by
  refine ⟨?_, rfl, by simp⟩
  rfl

/-- C7 (amended): for every payload P and metadata map M whose values are
all non-empty strings (and whose keys are distinct, as in a JS Map),
`put(key, P, {meta: M})` followed by `get(key, keys(M))` returns content
equal to P (as text) and a metadata map equal to M restricted to the
requested keys (which is M itself) — including when a compression codec
and threshold are configured and P's length is at least the threshold, in
which case the returned content is still P; `getAsBuffer` agrees. -/
theorem c7_put_get_round_trip
    (cfg : ClientConfig) (st : Store) (key : String) (data : Bytes)
    (M : List (String × String))
    (hcodec : ∀ b, cfg.decompress (cfg.compress b) = b)
    (hvals : ∀ p ∈ M, p.2 ≠ "")
    (hnodup : (M.map Prod.fst).Nodup) :
    ∃ r : GetResult,
      awsGet cfg (awsPut cfg st key data (some { meta := some M })) key
        (M.map Prod.fst) = .ok (some r) ∧
      r.content = data ∧
      r.meta = specRestrictMeta M (M.map Prod.fst) ∧
      r.meta = M ∧
      awsGetAsBuffer cfg (awsPut cfg st key data (some { meta := some M })) key
        (M.map Prod.fst) = .ok (some r) := by
  have hmetaEq : (M.map Prod.fst).filterMap (fun k =>
      match M.lookup k with
      | some v => if v ≠ "" then some (k, v) else none
      | none => none) = M := by
    rw [codeMeta_eq_spec M _ hvals, specRestrict_self M hnodup]
  by_cases hcomp : jsTruthyStr cfg.compressType = true ∧ data.length ≥ cfg.compressLimit
  · have hput : awsPut cfg st key data (some { meta := some M })
        = st.set key
          { body := cfg.compress data, metadata := M
            contentType := "text/plain", contentEncoding := some "gzip" } := by
      unfold awsPut s3SendPut putParams
      rw [if_pos hcomp]
      rfl
    have hget : getWithMetadata cfg
        (awsPut cfg st key data (some { meta := some M })) key (M.map Prod.fst)
        = .ok (some
          { content := data
            meta := M
            headers := { contentType := "text/plain", etag := ""
                         contentLength := (cfg.compress data).length } }) := by
      rw [hput, getWithMetadata_found cfg _ key (M.map Prod.fst) _
        (store_find_set st key _)]
      simp only [Except.ok.injEq, Option.some.injEq, GetResult.mk.injEq]
      refine ⟨?_, hmetaEq, trivial⟩
      rw [show encodingIsGzip (some "gzip") = true from rfl]
      simp only [if_true]
      exact hcodec data
    refine ⟨{ content := data, meta := M
              headers := { contentType := "text/plain", etag := ""
                           contentLength := (cfg.compress data).length } },
      ?_, rfl, (specRestrict_self M hnodup).symm, rfl, ?_⟩
    · rw [awsGet_eq_getWithMetadata, hget]
    · rw [awsGetAsBuffer_eq_getWithMetadata, hget]
  · have hput : awsPut cfg st key data (some { meta := some M })
        = st.set key
          { body := data, metadata := M
            contentType := "text/plain", contentEncoding := none } := by
      unfold awsPut s3SendPut putParams
      rw [if_neg hcomp]
      rfl
    have hget : getWithMetadata cfg
        (awsPut cfg st key data (some { meta := some M })) key (M.map Prod.fst)
        = .ok (some
          { content := data
            meta := M
            headers := { contentType := "text/plain", etag := ""
                         contentLength := data.length } }) := by
      rw [hput, getWithMetadata_found cfg _ key (M.map Prod.fst) _
        (store_find_set st key _)]
      simp only [Except.ok.injEq, Option.some.injEq, GetResult.mk.injEq]
      exact ⟨rfl, hmetaEq, trivial⟩
    refine ⟨{ content := data, meta := M
              headers := { contentType := "text/plain", etag := ""
                           contentLength := data.length } },
      ?_, rfl, (specRestrict_self M hnodup).symm, rfl, ?_⟩
    · rw [awsGet_eq_getWithMetadata, hget]
    · rw [awsGetAsBuffer_eq_getWithMetadata, hget]

/-- Witness for C7 (amended), with the gzip codec and threshold 3
configured and a 4-byte payload — the payload is compressed on the wire
and still comes back unchanged, with its metadata. -/
theorem c7_put_get_round_trip_witness :
    ∃ r : GetResult,
      awsGet cfgZ (awsPut cfgZ [] "k" [1, 2, 3, 4]
          (some { meta := some [("x", "1")] })) "k" ["x"]
        = .ok (some r) ∧
      r.content = [1, 2, 3, 4] ∧ r.meta = [("x", "1")] := by
  obtain ⟨r, h1, hc, _, hm, _⟩ := c7_put_get_round_trip cfgZ [] "k"
    [1, 2, 3, 4] [("x", "1")] (fun b => rfl) (by decide) (by decide)
  exact ⟨r, h1, hc, hm⟩

end Awos

